import Mathlib

/-!
Shallow embedding of the coverage-scoring and gap-analysis engine of the
RTO-Validator frontend (client/src/App.jsx): tokenizer, coverage evaluator,
unit report builder, multi-unit aggregation and the report-selection state.
JS numbers are modelled as exact naturals/rationals (all arithmetic here is
integer percentages and half-up rounding, where no binary-float tie can occur),
JS strings as Lean strings, absent object fields as Option, and JS string
truthiness explicitly.
-/

namespace RTOValidator

/-- The fixed stop-word set STOP of App.jsx. -/
def STOP : List String :=
  ["the","and","a","an","for","to","of","in","on","by","with","as","that","are","is","be","or","at",
   "from","this","it","into","over","under","up","down","across","about","between","their","your",
   "you","we","our","they"]

/-- JS regex whitespace class, restricted to the ASCII whitespace characters. -/
def isWs (c : Char) : Bool :=
  c == ' ' || c == '\t' || c == '\n' || c == '\r' || c == Char.ofNat 11 || c == Char.ofNat 12

/-- A character kept by the regex class [a-z0-9]. -/
def isTokChar (c : Char) : Bool :=
  ('a' ≤ c && c ≤ 'z') || ('0' ≤ c && c ≤ '9')

/-- One character of the normalisation pipeline of tokenize: lower-case, then
replace every character outside [a-z0-9 whitespace] by a space. -/
def normChar (c : Char) : Char :=
  let lc := c.toLower
  if isTokChar lc || isWs lc then lc else ' '

/-- Split a character list at every whitespace character, keeping empty pieces
(the behaviour of a JS split; the empty pieces are dropped by the truthiness
filter of tokenize, so this agrees with splitting on whitespace runs). -/
def splitWs : List Char → List (List Char)
  | [] => [[]]
  | c :: rest =>
      if isWs c then [] :: splitWs rest
      else (splitWs rest).modifyHead (fun piece => c :: piece)

/-- tokenize of App.jsx: lower-case, replace non-[a-z0-9 whitespace] with a
space, split on whitespace, drop empty strings and stop words. An undefined
JS argument is modelled by the empty string (the source guards with t || ""). -/
def tokenize (t : String) : List String :=
  ((splitWs (t.data.map normChar)).map (fun piece => String.mk piece)).filter
    (fun w => decide (w ≠ "" ∧ w ∉ STOP))

/-- A requirement item as consumed by coverageCheck: code may be absent. -/
structure Target where
  code : Option String
  text : String
deriving Repr, DecidableEq

/-- JS string truthiness of a possibly absent string. -/
def strTruthy : Option String → Bool
  | some s => s ≠ ""
  | none => false

/-- The label pushed to missing: t.code || t.text.slice(0, 60). -/
def labelOf (t : Target) : String :=
  if strTruthy t.code then t.code.getD "" else t.text.take 60

/-- Number of needle tokens (duplicates counted) that are members of the
haystack token set (JS Set membership is plain string equality). -/
def presentCount (textTokens key : List String) : Nat :=
  (key.filter (fun k => decide (k ∈ textTokens))).length

/-- The loop body of coverageCheck over the target list: returns the covered
count and the missing labels in input order.  The JS test
present / key.length >= 0.35 is the exact rational comparison
35 * key.length <= 100 * present. -/
def covScan (textTokens : List String) : List Target → Nat × List String
  | [] => (0, [])
  | t :: rest =>
      let key := tokenize t.text
      let r := covScan textTokens rest
      if key.length = 0 then r
      else if 35 * key.length ≤ 100 * presentCount textTokens key then (r.1 + 1, r.2)
      else (r.1, labelOf t :: r.2)

structure CoverageResult where
  total : Nat
  assessed : Nat
  percentage : Nat
  missing : List String
deriving Repr, DecidableEq

/-- JS Math.round(num / den) for nonnegative exact arguments (half rounds up). -/
def roundHalfUp (num den : Nat) : Nat := (2 * num + den) / (2 * den)

/-- coverageCheck of App.jsx. -/
def coverageCheck (fullText : String) (targets : List Target) : CoverageResult :=
  let textTokens := tokenize fullText
  let r := covScan textTokens targets
  { total := targets.length
    assessed := r.1
    percentage := if targets.length = 0 then 0 else roundHalfUp (r.1 * 100) targets.length
    missing := r.2 }

/-! Report data model (the object shapes built by buildReportFromTGA). -/

structure StatusEntry where
  status : String
  score : Nat
deriving Repr, DecidableEq

structure Gap where
  type : String
  element : String
  description : String
  recommendation : String
  priority : String
deriving Repr, DecidableEq

structure ReportUnit where
  code : Option String
  title : String
  url : Option String
deriving Repr, DecidableEq

structure Coverage where
  performanceCriteria : CoverageResult
  knowledge : CoverageResult
deriving Repr, DecidableEq

structure RulesOfEvidence where
  validity : StatusEntry
  sufficiency : StatusEntry
  authenticity : StatusEntry
  currency : StatusEntry
deriving Repr, DecidableEq

structure PrinciplesOfAssessment where
  fairness : StatusEntry
  flexibility : StatusEntry
  validity : StatusEntry
  reliability : StatusEntry
deriving Repr, DecidableEq

structure UnitReport where
  unit : ReportUnit
  coverage : Coverage
  rulesOfEvidence : RulesOfEvidence
  principlesOfAssessment : PrinciplesOfAssessment
  gaps : List Gap
deriving Repr, DecidableEq

/-! The unit-definition payload consumed from the provider, with every field
possibly absent (JS undefined is Option.none). -/

structure PCEntry where
  pcCode : Option String
  description : Option String
deriving Repr, DecidableEq

structure UnitField where
  code : Option String
  title : Option String
deriving Repr, DecidableEq

structure TGAPayload where
  unit : Option UnitField
  code : Option String
  title : Option String
  url : Option String
  elementsAndPC : Option (List PCEntry)
  knowledgeEvidence : Option (List String)
  found : Option Bool
deriving Repr, DecidableEq

/-- JS a || dflt on a possibly absent string, the default already a string. -/
def jsOrStr (a : Option String) (dflt : String) : String :=
  if strTruthy a then a.getD "" else dflt

/-- The unit normalisation at the top of buildReportFromTGA:
tgaPayload.unit?.code ? nested shape : top-level shape. -/
def normalizeUnit (p : TGAPayload) : ReportUnit :=
  match p.unit with
  | some u =>
      if strTruthy u.code then
        { code := u.code, title := jsOrStr u.title (jsOrStr p.title ""), url := p.url }
      else
        { code := p.code, title := jsOrStr p.title "", url := p.url }
  | none => { code := p.code, title := jsOrStr p.title "", url := p.url }

/-- p.pcCode && p.description, the filter kept by buildReportFromTGA. -/
def pcTruthy (e : PCEntry) : Bool :=
  strTruthy e.pcCode && strTruthy e.description

/-- The performance-criteria requirement list: entries with both fields
truthy, labelled "PC <pcCode>". -/
def pcsOf (p : TGAPayload) : List Target :=
  ((p.elementsAndPC.getD []).filter pcTruthy).map
    (fun e => { code := some ("PC " ++ e.pcCode.getD ""), text := e.description.getD "" })

/-- The knowledge-evidence requirement list, labelled K1, K2, ... -/
def kesOf (p : TGAPayload) : List Target :=
  (p.knowledgeEvidence.getD []).enum.map
    (fun it => { code := some ("K" ++ toString (it.1 + 1)), text := it.2 })

def pcGapOf (pc : String) : Gap :=
  { type := "critical", element := pc,
    description := "Performance criterion not clearly evidenced in assessment text.",
    recommendation := "Add/clarify an assessment task or marking checklist item for this PC.",
    priority := "HIGH" }

def keGapOf (k : String) : Gap :=
  { type := "improvement", element := k,
    description := "Knowledge evidence coverage could be strengthened.",
    recommendation := "Add a short-answer/scenario question to explicitly test this knowledge.",
    priority := "MEDIUM" }

/-- buildReportFromTGA of App.jsx (the component state assessmentText passed
explicitly).  Math.round(pcP * 0.6 + keP * 0.4) is the exact rational
rounding of (6 * pcP + 4 * keP) / 10; no tie is possible since the numerator
is even, so binary-float rounding agrees. -/
def buildReportFromTGA (assessmentText : String) (p : TGAPayload) : UnitReport :=
  let pcCov := coverageCheck assessmentText (pcsOf p)
  let keCov := coverageCheck assessmentText (kesOf p)
  let sufficiency := min 100 (roundHalfUp (6 * pcCov.percentage + 4 * keCov.percentage) 10)
  let validity := pcCov.percentage
  let validityEntry : StatusEntry :=
    { status := if validity ≥ 85 then "pass" else if validity ≥ 70 then "warning" else "fail",
      score := validity }
  { unit := normalizeUnit p
    coverage := { performanceCriteria := pcCov, knowledge := keCov }
    rulesOfEvidence :=
      { validity := validityEntry
        sufficiency :=
          { status := if sufficiency ≥ 90 then "pass" else if sufficiency ≥ 75 then "warning" else "fail",
            score := sufficiency }
        authenticity := { status := "pass", score := 100 }
        currency := { status := "pass", score := 100 } }
    principlesOfAssessment :=
      { fairness := { status := "pass", score := 95 }
        flexibility := { status := "pass", score := 90 }
        validity := { status := validityEntry.status, score := validity }
        reliability := { status := "pass", score := 92 } }
    gaps := (pcCov.missing.take 5).map pcGapOf ++ (keCov.missing.take 5).map keGapOf }

/-! Multi-unit aggregation (the validate handler) and the report-selection
state of the App component. -/

/-- Outcome of one settled promise of Promise.allSettled. -/
inductive Settled (α : Type) where
  | rejected
  | fulfilled (value : α)
deriving Repr, DecidableEq

/-- fetchUoc returns the parsed payload or null; a provider resolves one code. -/
abbrev Provider := String → Settled (Option TGAPayload)

/-- settled.status !== "fulfilled" || !settled.value || settled.value.found === false. -/
def resolutionFailed : Settled (Option TGAPayload) → Bool
  | .rejected => true
  | .fulfilled none => true
  | .fulfilled (some p) => p.found == some false

/-- The standardized per-unit failure report substituted by validate when a
code cannot be resolved. -/
def failureReport (code : String) : UnitReport :=
  { unit := { code := some code, title := "No TGA details available", url := none }
    coverage :=
      { performanceCriteria := { total := 0, assessed := 0, percentage := 0, missing := [] }
        knowledge := { total := 0, assessed := 0, percentage := 0, missing := [] } }
    rulesOfEvidence :=
      { validity := { status := "fail", score := 0 }
        sufficiency := { status := "fail", score := 0 }
        authenticity := { status := "warning", score := 50 }
        currency := { status := "warning", score := 50 } }
    principlesOfAssessment :=
      { fairness := { status := "warning", score := 50 }
        flexibility := { status := "warning", score := 50 }
        validity := { status := "fail", score := 0 }
        reliability := { status := "warning", score := 50 } }
    gaps :=
      [{ type := "critical", element := code,
         description := "Could not fetch details from training.gov.au for this code.",
         recommendation := "Check the unit code or try again later.",
         priority := "HIGH" }] }

/-- The single report produced by validate when no UoC was detected. -/
def noUoCReport : UnitReport :=
  { unit := { code := some "N/A", title := "No UoC detected", url := none }
    coverage :=
      { performanceCriteria := { total := 0, assessed := 0, percentage := 0, missing := [] }
        knowledge := { total := 0, assessed := 0, percentage := 0, missing := [] } }
    rulesOfEvidence :=
      { validity := { status := "fail", score := 0 }
        sufficiency := { status := "fail", score := 0 }
        authenticity := { status := "warning", score := 50 }
        currency := { status := "warning", score := 50 } }
    principlesOfAssessment :=
      { fairness := { status := "warning", score := 50 }
        flexibility := { status := "warning", score := 50 }
        validity := { status := "fail", score := 0 }
        reliability := { status := "warning", score := 50 } }
    gaps :=
      [{ type := "critical", element := "UoC",
         description := "No valid UoC detected in document.",
         recommendation := "Ensure the assessment references the correct Unit code(s) per Training.gov.au.",
         priority := "HIGH" }] }

/-- The per-unit mapping of validate over the allSettled results: result order
is the detectedCodes order (allSettled returns outcomes indexed by input
position, so completion order never enters the model). -/
def perUnitReports (assessmentText : String) (detectedCodes : List String)
    (provider : Provider) : List UnitReport :=
  detectedCodes.map (fun code =>
    match provider code with
    | .fulfilled (some p) =>
        if p.found == some false then failureReport code
        else buildReportFromTGA assessmentText p
    | _ => failureReport code)

/-- The React component state that the validate handler reads and writes. -/
structure AppState where
  assessmentText : String
  detectedUoCs : List String
  reports : List UnitReport
  activeReportIdx : Nat
deriving Repr

def initState : AppState :=
  { assessmentText := "", detectedUoCs := [], reports := [], activeReportIdx := 0 }

/-- validate of App.jsx as a state transition.  The empty-detection branch
stores the single noUoCReport and returns without touching activeReportIdx;
the resolved branch stores the per-unit reports and resets the index to 0. -/
def validate (provider : Provider) (s : AppState) : AppState :=
  if s.detectedUoCs.isEmpty then
    { s with reports := [noUoCReport] }
  else
    { s with reports := perUnitReports s.assessmentText s.detectedUoCs provider,
             activeReportIdx := 0 }

/-- handleUpload clears reports and the selection index and installs the
detected codes and extracted text of the server response (both empty on any
upload failure path). -/
def handleUpload (detected : List String) (text : String) (_s : AppState) : AppState :=
  { assessmentText := text, detectedUoCs := detected, reports := [], activeReportIdx := 0 }

/-- Clicking a unit button in the results list; the UI renders one button per
existing report, so the index is in range. -/
def selectReport (i : Nat) (s : AppState) : AppState :=
  if i < s.reports.length then { s with activeReportIdx := i } else s

inductive Event where
  | upload (detected : List String) (text : String)
  | validateRun (provider : Provider)
  | selectIdx (i : Nat)

def step (s : AppState) : Event → AppState
  | .upload d t => handleUpload d t s
  | .validateRun p => validate p s
  | .selectIdx i => selectReport i s

/-- States the App component can actually be in. -/
inductive Reachable : AppState → Prop where
  | init : Reachable initState
  | next {s} (e : Event) : Reachable s → Reachable (step s e)

/-! Structural lemmas about the coverage evaluator. -/

/-- A requirement whose tokenized text is non-empty (not skipped by the loop). -/
def needleNE (t : Target) : Bool := decide ((tokenize t.text).length ≠ 0)

/-- The covered test of the loop: present / key.length >= 0.35 as the exact
rational comparison. -/
def coveredB (tt : List String) (t : Target) : Bool :=
  decide (35 * (tokenize t.text).length ≤ 100 * presentCount tt (tokenize t.text))

theorem covScan_eq (tt : List String) (ts : List Target) :
    covScan tt ts =
      ((ts.filter (fun t => needleNE t && coveredB tt t)).length,
       (ts.filter (fun t => needleNE t && !coveredB tt t)).map labelOf) := by
  induction ts with
  | nil => simp [covScan]
  | cons t rest ih =>
      by_cases h0 : tokenize t.text = []
      · simp [covScan, h0, needleNE, List.filter_cons, ih]
      · by_cases hc : 35 * (tokenize t.text).length ≤ 100 * presentCount tt (tokenize t.text)
        · simp [covScan, h0, hc, needleNE, coveredB, List.filter_cons, ih,
            List.length_eq_zero]
        · simp [covScan, h0, hc, needleNE, coveredB, List.filter_cons, ih,
            List.length_eq_zero]

theorem length_filter_and_split {α : Type} (p q : α → Bool) (l : List α) :
    (l.filter (fun a => p a && q a)).length + (l.filter (fun a => p a && !q a)).length
      = (l.filter p).length := by
  induction l with
  | nil => simp
  | cons a l ih =>
      by_cases hp : p a <;> by_cases hq : q a <;>
        simp [List.filter_cons, hp, hq] <;> omega

theorem covScan_counts (tt : List String) (ts : List Target) :
    (covScan tt ts).1 + (covScan tt ts).2.length = (ts.filter needleNE).length := by
  rw [covScan_eq]
  simpa using length_filter_and_split needleNE (coveredB tt) ts

theorem covScan_fst_le (tt : List String) (ts : List Target) :
    (covScan tt ts).1 ≤ (ts.filter needleNE).length := by
  have h := covScan_counts tt ts
  omega

theorem covScan_snd_sublist (tt : List String) (ts : List Target) :
    List.Sublist (covScan tt ts).2 (ts.map labelOf) := by
  rw [covScan_eq]
  exact (ts.filter_sublist).map labelOf

/-- A 20-token requirement used to exercise the 0.35 threshold boundary. -/
def twentyTokenReq : Target :=
  { code := some "PC 1.1",
    text := "t01 t02 t03 t04 t05 t06 t07 t08 t09 t10 t11 t12 t13 t14 t15 t16 t17 t18 t19 t20" }

/-- C1 (amended): for every assessment text and requirement list the
CoverageResult satisfies 0 <= assessed <= total, percentage is the half-up
rounding of assessed*100/total when total > 0 and 0 otherwise, the missing
labels appear in the relative order of their requirements in the input list,
and the length of missing equals the number of requirements with a non-empty
tokenized text minus assessed (the original claim said total - assessed, which
fails because skipped requirements still count toward total). -/
theorem coverageCheck_invariants (fullText : String) (targets : List Target) :
    (coverageCheck fullText targets).assessed ≤ (coverageCheck fullText targets).total
    ∧ (coverageCheck fullText targets).percentage =
        (if (coverageCheck fullText targets).total = 0 then 0
         else roundHalfUp ((coverageCheck fullText targets).assessed * 100)
                (coverageCheck fullText targets).total)
    ∧ (coverageCheck fullText targets).missing.length =
        (targets.filter needleNE).length - (coverageCheck fullText targets).assessed
    ∧ List.Sublist (coverageCheck fullText targets).missing (targets.map labelOf) := by
  have hcount := covScan_counts (tokenize fullText) targets
  have hle := covScan_fst_le (tokenize fullText) targets
  have hfl := List.length_filter_le needleNE targets
  refine ⟨?_, ?_, ?_, ?_⟩
  · simpa [coverageCheck] using hle.trans hfl
  · simp [coverageCheck]
  · simp only [coverageCheck]
    omega
  · simpa [coverageCheck] using covScan_snd_sublist (tokenize fullText) targets

/-- C1 counterexample: a single all-stop-word requirement is skipped, so
missing is empty while total - assessed = 1. -/
theorem coverageCheck_missing_length_cex :
    ¬ ((coverageCheck "" [{ code := none, text := "the" }]).missing.length
        = (coverageCheck "" [{ code := none, text := "the" }]).total
          - (coverageCheck "" [{ code := none, text := "the" }]).assessed) := by
  decide

/-- C2 (amended): a requirement whose tokenized text is empty is skipped by
the loop, so assessed and missing are those of the list restricted to
requirements with non-empty tokenized text; but the returned total is the
full length of the requirement list, not the count of non-skipped
requirements as the original claim said. -/
theorem coverageCheck_skips (fullText : String) (targets : List Target) :
    (coverageCheck fullText targets).total = targets.length
    ∧ (coverageCheck fullText targets).assessed
        = (coverageCheck fullText (targets.filter needleNE)).assessed
    ∧ (coverageCheck fullText targets).missing
        = (coverageCheck fullText (targets.filter needleNE)).missing := by
  have hfix : ∀ q : Target → Bool,
      List.filter (fun t => needleNE t && q t) (List.filter needleNE targets)
        = List.filter (fun t => needleNE t && q t) targets := by
    intro q
    rw [List.filter_filter]
    refine List.filter_congr ?_
    intro a _
    cases hq : q a <;> cases hn : needleNE a <;> simp [hq, hn]
  refine ⟨by simp [coverageCheck], ?_, ?_⟩
  · simp only [coverageCheck, covScan_eq]
    rw [hfix]
  · simp only [coverageCheck, covScan_eq]
    rw [hfix]

/-- C2 counterexample: with one all-stop-word requirement and one normal
requirement, total is 2 although only one requirement has a non-empty
tokenized text. -/
theorem coverageCheck_total_cex :
    ¬ ((coverageCheck "plan" [{ code := some "PC1", text := "the and of" },
                              { code := some "PC2", text := "plan work" }]).total
        = ([{ code := some "PC1", text := "the and of" },
            { code := some "PC2", text := "plan work" }].filter needleNE).length) := by
  decide

/-- C3: assessed counts exactly the requirements with non-empty needle whose
present-token count reaches the 0.35 ratio (presentCount counts needle tokens
with duplicates that are members of the haystack token set), and missing
collects the labels (code if truthy, else the first 60 characters of the
text) of the others in order; a 20-token needle with 7 tokens present is
covered, with 6 present it is missing. -/
theorem coverageCheck_threshold (fullText : String) (targets : List Target) :
    ((coverageCheck fullText targets).assessed
        = (targets.filter (fun t => needleNE t && coveredB (tokenize fullText) t)).length
      ∧ (coverageCheck fullText targets).missing
        = (targets.filter (fun t => needleNE t && !coveredB (tokenize fullText) t)).map labelOf)
    ∧ coverageCheck "t01 t02 t03 t04 t05 t06 t07" [twentyTokenReq]
        = { total := 1, assessed := 1, percentage := 100, missing := [] }
    ∧ coverageCheck "t01 t02 t03 t04 t05 t06" [twentyTokenReq]
        = { total := 1, assessed := 0, percentage := 0, missing := ["PC 1.1"] } := by
  refine ⟨⟨?_, ?_⟩, by decide, by decide⟩
  · simp [coverageCheck, covScan_eq]
  · simp [coverageCheck, covScan_eq]

theorem coverageCheck_percentage_le (f : String) (ts : List Target) :
    (coverageCheck f ts).percentage ≤ 100 := by
  by_cases h : ts.length = 0
  · simp [coverageCheck, h]
  · have hle : (covScan (tokenize f) ts).1 ≤ ts.length :=
      (covScan_fst_le _ ts).trans (List.length_filter_le _ _)
    have hpos : 0 < 2 * ts.length := by omega
    have hlt : 2 * ((covScan (tokenize f) ts).1 * 100) + ts.length
        < 101 * (2 * ts.length) := by omega
    have hdiv := (Nat.div_lt_iff_lt_mul hpos).2 hlt
    simp only [coverageCheck, h, if_false, roundHalfUp]
    omega

theorem roundHalfUp_ten_le {a : Nat} (ha : a ≤ 1000) : roundHalfUp a 10 ≤ 100 := by
  unfold roundHalfUp
  omega

/-- C4: scores and statuses of the unit report.  validity is the PC coverage
percentage; sufficiency is the half-up rounding of
min(100, 0.6 * pcPercentage + 0.4 * kePercentage) (the source computes
min(100, round(...)); both agree since percentages never exceed 100);
rules-of-evidence thresholds 85/70 for validity and 90/75 for sufficiency;
authenticity and currency fixed pass/100; principles fairness pass/95,
flexibility pass/90, reliability pass/92, validity mirroring the
rules-of-evidence validity entry. -/
theorem buildReport_scores (text : String) (p : TGAPayload) :
    (buildReportFromTGA text p).rulesOfEvidence.validity.score
        = (buildReportFromTGA text p).coverage.performanceCriteria.percentage
    ∧ (buildReportFromTGA text p).rulesOfEvidence.sufficiency.score
        = roundHalfUp
            (min 1000
              (6 * (buildReportFromTGA text p).coverage.performanceCriteria.percentage
                + 4 * (buildReportFromTGA text p).coverage.knowledge.percentage)) 10
    ∧ (buildReportFromTGA text p).rulesOfEvidence.validity.status
        = (if (buildReportFromTGA text p).rulesOfEvidence.validity.score ≥ 85 then "pass"
           else if (buildReportFromTGA text p).rulesOfEvidence.validity.score ≥ 70 then "warning"
           else "fail")
    ∧ (buildReportFromTGA text p).rulesOfEvidence.sufficiency.status
        = (if (buildReportFromTGA text p).rulesOfEvidence.sufficiency.score ≥ 90 then "pass"
           else if (buildReportFromTGA text p).rulesOfEvidence.sufficiency.score ≥ 75 then "warning"
           else "fail")
    ∧ (buildReportFromTGA text p).rulesOfEvidence.authenticity = { status := "pass", score := 100 }
    ∧ (buildReportFromTGA text p).rulesOfEvidence.currency = { status := "pass", score := 100 }
    ∧ (buildReportFromTGA text p).principlesOfAssessment.fairness = { status := "pass", score := 95 }
    ∧ (buildReportFromTGA text p).principlesOfAssessment.flexibility = { status := "pass", score := 90 }
    ∧ (buildReportFromTGA text p).principlesOfAssessment.reliability = { status := "pass", score := 92 }
    ∧ (buildReportFromTGA text p).principlesOfAssessment.validity
        = (buildReportFromTGA text p).rulesOfEvidence.validity := by
  have hpc := coverageCheck_percentage_le text (pcsOf p)
  have hke := coverageCheck_percentage_le text (kesOf p)
  have ha : 6 * (coverageCheck text (pcsOf p)).percentage
      + 4 * (coverageCheck text (kesOf p)).percentage ≤ 1000 := by omega
  have hround := roundHalfUp_ten_le ha
  refine ⟨rfl, ?_, rfl, rfl, rfl, rfl, rfl, rfl, rfl, rfl⟩
  simp only [buildReportFromTGA]
  rw [Nat.min_eq_right ha, Nat.min_eq_right hround]

theorem filter_critical_pcGaps (l : List String) :
    (l.map pcGapOf).filter (fun g => g.type == "critical") = l.map pcGapOf := by
  induction l with
  | nil => simp
  | cons a l ih => simp [List.filter_cons, pcGapOf, ih]

theorem filter_critical_keGaps (l : List String) :
    (l.map keGapOf).filter (fun g => g.type == "critical") = [] := by
  induction l with
  | nil => simp
  | cons a l ih => simp [List.filter_cons, keGapOf, ih]

/-- C5: the gaps list is exactly the first at-most-5 missing performance
criteria as critical/HIGH gaps (with the fixed PC description and
recommendation) followed by the first at-most-5 missing knowledge items as
improvement/MEDIUM gaps, so it has at most 10 entries and at most 5 critical
gaps however many PC items are missing. -/
theorem buildReport_gaps (text : String) (p : TGAPayload) :
    (buildReportFromTGA text p).gaps
      = ((buildReportFromTGA text p).coverage.performanceCriteria.missing.take 5).map pcGapOf
        ++ ((buildReportFromTGA text p).coverage.knowledge.missing.take 5).map keGapOf
    ∧ (buildReportFromTGA text p).gaps.length ≤ 10
    ∧ ((buildReportFromTGA text p).gaps.filter (fun g => g.type == "critical")).length ≤ 5 := by
  refine ⟨rfl, ?_, ?_⟩
  · simp only [buildReportFromTGA, List.length_append, List.length_map, List.length_take]
    omega
  · show ((((coverageCheck text (pcsOf p)).missing.take 5).map pcGapOf
        ++ ((coverageCheck text (kesOf p)).missing.take 5).map keGapOf).filter
          (fun g => g.type == "critical")).length ≤ 5
    rw [List.filter_append, filter_critical_pcGaps, filter_critical_keGaps]
    simp [List.length_take]

/-- C6: for every detected-code sequence the aggregated collection has one
report per code in the same order; each code whose resolution fails
(rejected promise, null payload, or payload flagged found = false) yields
the standardized failure report at its position, every other code yields the
normally built report, and the failure report is exactly the fixed template
with title "No TGA details available", 0/0/0 coverage, validity and
sufficiency fail/0, authenticity and currency warning/50, all principles
warning/50 except validity fail/0, and exactly one critical/HIGH gap. -/
theorem validate_resolution (text : String) (codes : List String) (provider : Provider) :
    (perUnitReports text codes provider).length = codes.length
    ∧ (∀ (i : Nat) (hi : i < codes.length)
          (hr : i < (perUnitReports text codes provider).length),
        (resolutionFailed (provider (codes.get ⟨i, hi⟩)) = true →
          (perUnitReports text codes provider).get ⟨i, hr⟩
            = failureReport (codes.get ⟨i, hi⟩))
        ∧ (∀ q : TGAPayload,
            provider (codes.get ⟨i, hi⟩) = Settled.fulfilled (some q) →
            resolutionFailed (provider (codes.get ⟨i, hi⟩)) = false →
            (perUnitReports text codes provider).get ⟨i, hr⟩ = buildReportFromTGA text q))
    ∧ (∀ code : String, failureReport code =
        { unit := { code := some code, title := "No TGA details available", url := none }
          coverage :=
            { performanceCriteria := { total := 0, assessed := 0, percentage := 0, missing := [] }
              knowledge := { total := 0, assessed := 0, percentage := 0, missing := [] } }
          rulesOfEvidence :=
            { validity := { status := "fail", score := 0 }
              sufficiency := { status := "fail", score := 0 }
              authenticity := { status := "warning", score := 50 }
              currency := { status := "warning", score := 50 } }
          principlesOfAssessment :=
            { fairness := { status := "warning", score := 50 }
              flexibility := { status := "warning", score := 50 }
              validity := { status := "fail", score := 0 }
              reliability := { status := "warning", score := 50 } }
          gaps := [{ type := "critical", element := code,
                     description := "Could not fetch details from training.gov.au for this code.",
                     recommendation := "Check the unit code or try again later.",
                     priority := "HIGH" }] }) := by
  refine ⟨by simp [perUnitReports], ?_, fun code => rfl⟩
  intro i hi hr
  simp only [perUnitReports, List.get_eq_getElem, List.getElem_map]
  constructor
  · intro hfail
    cases hp : provider codes[i] with
    | rejected => simp [hp]
    | fulfilled v =>
        cases v with
        | none => simp [hp]
        | some q =>
            rw [hp] at hfail
            simp only [resolutionFailed] at hfail
            simp [hp, hfail]
  · intro q hq hok
    rw [hq] at hok
    simp only [resolutionFailed] at hok
    simp [hq, hok]

/-- A provider resolving MARN008 and failing every other code, used to
exercise validate_resolution. -/
def provC6 : Provider := fun c =>
  if c = "MARN008"
  then Settled.fulfilled (some
    { unit := some { code := some "MARN008", title := some "Mock unit" }
      code := none, title := none, url := none
      elementsAndPC := none, knowledgeEvidence := none, found := none })
  else Settled.fulfilled none

/-- Witness for C6: with codes [MARN008, UNKNOWNXYZ] the collection has two
entries and the second is the standardized failure report. -/
theorem validate_resolution_witness :
    (perUnitReports "" ["MARN008", "UNKNOWNXYZ"] provC6).length
        = ["MARN008", "UNKNOWNXYZ"].length
    ∧ (perUnitReports "" ["MARN008", "UNKNOWNXYZ"] provC6).get
        ⟨1, by simp [perUnitReports]⟩ = failureReport "UNKNOWNXYZ" := by
  have h := validate_resolution "" ["MARN008", "UNKNOWNXYZ"] provC6
  refine ⟨h.1, ?_⟩
  exact (h.2.1 1 (by decide) (by simp [perUnitReports])).1 (by decide)

/-- C7: when no UoC was detected, validate stores a single-element collection
whose only report is the fixed no-UoC template: unit code N/A, zero coverage
for both requirement kinds, the fail/warning rule and principle template,
and exactly one critical gap. -/
theorem validate_noUoC (s : AppState) (provider : Provider) (h : s.detectedUoCs = []) :
    (validate provider s).reports = [noUoCReport]
    ∧ noUoCReport.unit.code = some "N/A"
    ∧ noUoCReport.coverage.performanceCriteria
        = { total := 0, assessed := 0, percentage := 0, missing := [] }
    ∧ noUoCReport.coverage.knowledge
        = { total := 0, assessed := 0, percentage := 0, missing := [] }
    ∧ noUoCReport.rulesOfEvidence
        = { validity := { status := "fail", score := 0 }
            sufficiency := { status := "fail", score := 0 }
            authenticity := { status := "warning", score := 50 }
            currency := { status := "warning", score := 50 } }
    ∧ noUoCReport.principlesOfAssessment
        = { fairness := { status := "warning", score := 50 }
            flexibility := { status := "warning", score := 50 }
            validity := { status := "fail", score := 0 }
            reliability := { status := "warning", score := 50 } }
    ∧ noUoCReport.gaps.length = 1
    ∧ (∀ g ∈ noUoCReport.gaps, g.type = "critical" ∧ g.priority = "HIGH") := by
  refine ⟨by simp [validate, h], rfl, rfl, rfl, rfl, rfl, rfl, ?_⟩
  intro g hg
  simp only [noUoCReport, List.mem_singleton] at hg
  subst hg
  exact ⟨rfl, rfl⟩

/-- Witness for C7: validate on the initial state (no detected codes). -/
theorem validate_noUoC_witness :
    (validate (fun _ => Settled.rejected) initState).reports = [noUoCReport] :=
  (validate_noUoC initState (fun _ => Settled.rejected) rfl).1

/-- Selection-index invariant maintained by every handler of the component:
the index is in range whenever reports exist, and whenever no UoC is detected
(or no reports exist) the index is still 0, with at most one report in the
no-detection regime. -/
def SelInv (s : AppState) : Prop :=
  (s.reports ≠ [] → s.activeReportIdx < s.reports.length)
  ∧ (s.detectedUoCs = [] → s.activeReportIdx = 0)
  ∧ (s.reports = [] → s.activeReportIdx = 0)
  ∧ (s.detectedUoCs = [] → s.reports.length ≤ 1)

theorem selInv_init : SelInv initState := by
  simp [SelInv, initState]

theorem selInv_step (s : AppState) (e : Event) (h : SelInv s) : SelInv (step s e) := by
  obtain ⟨h1, h2, h3, h4⟩ := h
  cases e with
  | upload d t => simp [step, handleUpload, SelInv]
  | validateRun p =>
      by_cases hd : s.detectedUoCs.isEmpty
      · have hd0 : s.detectedUoCs = [] := List.isEmpty_iff.mp hd
        have hidx : s.activeReportIdx = 0 := h2 hd0
        simp [step, validate, hd, SelInv, hidx, hd0]
      · have hd0 : s.detectedUoCs ≠ [] := fun hc => hd (List.isEmpty_iff.mpr hc)
        have hlen : 0 < (perUnitReports s.assessmentText s.detectedUoCs p).length := by
          simpa [perUnitReports] using List.length_pos.mpr hd0
        refine ⟨fun _ => by simpa [step, validate, hd] using hlen, ?_, ?_, ?_⟩
        · intro hc; exact absurd hc (by simpa [step, validate, hd] using hd0)
        · intro hc
          have hnil : perUnitReports s.assessmentText s.detectedUoCs p = [] := by
            simpa [step, validate, hd] using hc
          rw [hnil] at hlen
          simp at hlen
        · intro hc; exact absurd hc (by simpa [step, validate, hd] using hd0)
  | selectIdx i =>
      by_cases hi : i < s.reports.length
      · refine ⟨?_, ?_, ?_, ?_⟩
        · intro _; simp [step, selectReport, hi]
        · intro hd
          have := h4 (by simpa [step, selectReport, hi] using hd)
          simp only [step, selectReport, if_pos hi]
          omega
        · intro hrep
          rw [show (step s (Event.selectIdx i)).reports = s.reports from by
            simp [step, selectReport, hi]] at hrep
          rw [hrep] at hi
          simp at hi
        · intro hd
          simpa [step, selectReport, hi] using
            h4 (by simpa [step, selectReport, hi] using hd)
      · simpa [step, selectReport, hi] using ⟨h1, h2, h3, h4⟩

theorem reachable_selInv {s : AppState} (h : Reachable s) : SelInv s := by
  induction h with
  | init => exact selInv_init
  | next e _ ih => exact selInv_step _ e ih

/-- C8: in every reachable component state, running validate leaves the
active selection index at 0 on both the empty-detection and the
resolved-codes path (the empty path performs no assignment, but the index is
provably already 0 there), and the selection index is a valid index into the
report collection whenever the collection is non-empty. -/
theorem selection_index_reset (s : AppState) (hs : Reachable s) :
    (∀ provider : Provider,
        (validate provider s).activeReportIdx = 0
        ∧ ((validate provider s).reports ≠ [] →
            (validate provider s).activeReportIdx < (validate provider s).reports.length))
    ∧ (s.reports ≠ [] → s.activeReportIdx < s.reports.length) := by
  obtain ⟨h1, h2, h3, h4⟩ := reachable_selInv hs
  refine ⟨?_, h1⟩
  intro provider
  have hv := selInv_step s (Event.validateRun provider) ⟨h1, h2, h3, h4⟩
  by_cases hd : s.detectedUoCs.isEmpty
  · have hd0 : s.detectedUoCs = [] := List.isEmpty_iff.mp hd
    have hidx : s.activeReportIdx = 0 := h2 hd0
    exact ⟨by simp [validate, hd, hidx], fun hne => hv.1 (by simpa [step] using hne)⟩
  · exact ⟨by simp [validate, hd], fun hne => hv.1 (by simpa [step] using hne)⟩

/-- Witness for C8: from the initial state (reachable by construction),
validate leaves the index at 0 and in range for the non-empty result. -/
theorem selection_index_reset_witness :
    (validate (fun _ => Settled.rejected) initState).activeReportIdx = 0
    ∧ ((validate (fun _ => Settled.rejected) initState).reports ≠ [] →
        (validate (fun _ => Settled.rejected) initState).activeReportIdx
          < (validate (fun _ => Settled.rejected) initState).reports.length) :=
  (selection_index_reset initState Reachable.init).1 (fun _ => Settled.rejected)

/-! Lemmas about the tokenizer. -/

theorem splitWs_ne_nil (l : List Char) : splitWs l ≠ [] := by
  induction l with
  | nil => simp [splitWs]
  | cons c rest ih =>
      by_cases h : isWs c
      · simp [splitWs, h]
      · obtain ⟨x, xs, hx⟩ := List.exists_cons_of_ne_nil ih
        simp [splitWs, h, hx]

theorem splitWs_mem_chars {l piece : List Char} (hp : piece ∈ splitWs l) {c : Char}
    (hc : c ∈ piece) : c ∈ l ∧ isWs c = false := by
  induction l generalizing piece with
  | nil =>
      simp only [splitWs, List.mem_singleton] at hp
      subst hp
      simp at hc
  | cons d rest ih =>
      by_cases h : isWs d
      · rw [splitWs, if_pos h, List.mem_cons] at hp
        rcases hp with hp | hp
        · subst hp; simp at hc
        · obtain ⟨hmem, hws⟩ := ih hp hc
          exact ⟨List.mem_cons_of_mem d hmem, hws⟩
      · obtain ⟨x, xs, hx⟩ := List.exists_cons_of_ne_nil (splitWs_ne_nil rest)
        rw [splitWs, if_neg h, hx, List.modifyHead_cons, List.mem_cons] at hp
        have hxmem : x ∈ splitWs rest := by rw [hx]; exact List.mem_cons_self x xs
        rcases hp with hp | hp
        · subst hp
          rcases List.mem_cons.mp hc with hcd | hcx
          · subst hcd
            exact ⟨List.mem_cons_self c rest, by simpa using h⟩
          · obtain ⟨hmem, hws⟩ := ih hxmem hcx
            exact ⟨List.mem_cons_of_mem d hmem, hws⟩
        · have hpmem : piece ∈ splitWs rest := by
            rw [hx]; exact List.mem_cons_of_mem x hp
          obtain ⟨hmem, hws⟩ := ih hpmem hc
          exact ⟨List.mem_cons_of_mem d hmem, hws⟩

theorem normChar_tok {c : Char} (h : isWs (normChar c) = false) :
    isTokChar (normChar c) = true := by
  unfold normChar at h ⊢
  by_cases hcond : (isTokChar c.toLower || isWs c.toLower) = true
  · rw [if_pos hcond] at h ⊢
    rcases Bool.or_eq_true_iff.mp hcond with h1 | h2
    · exact h1
    · rw [h2] at h; cases h
  · rw [if_neg hcond] at h
    simp [isWs] at h

theorem tokenize_chars {t w : String} (hw : w ∈ tokenize t) :
    w ≠ "" ∧ w ∉ STOP ∧ ∀ c ∈ w.data, isTokChar c = true := by
  unfold tokenize at hw
  rw [List.mem_filter] at hw
  obtain ⟨hmem, hcond⟩ := hw
  rw [decide_eq_true_iff] at hcond
  refine ⟨hcond.1, hcond.2, ?_⟩
  rw [List.mem_map] at hmem
  obtain ⟨piece, hpiece, rfl⟩ := hmem
  intro c hc
  obtain ⟨hmem2, hws⟩ := splitWs_mem_chars hpiece hc
  obtain ⟨c0, _, rfl⟩ := List.mem_map.mp hmem2
  exact normChar_tok hws

/-- C9: tokenize lower-cases, turns every character outside [a-z0-9
whitespace] into a space, splits on whitespace and drops empty tokens and
stop words: every produced token is a non-empty non-stop-word string of
lower-case alphanumeric characters, the empty (or absent, guarded by
t || "") input yields the empty token list, and the function is total so it
never raises. -/
theorem tokenize_spec :
    tokenize "" = []
    ∧ (∀ t : String, ∀ w ∈ tokenize t,
        w ≠ "" ∧ w ∉ STOP ∧ ∀ c ∈ w.data, isTokChar c = true)
    ∧ tokenize "Across the Deck, SAFE-Work 2a!" = ["deck", "safe", "work", "2a"] := by
  exact ⟨by decide, fun t w hw => tokenize_chars hw, by decide⟩

/-- Witness for C9 at a concrete token of a concrete input. -/
theorem tokenize_spec_witness :
    ("deck" ∈ tokenize "Across the Deck, SAFE-Work 2a!")
    ∧ ("deck" ≠ "" ∧ "deck" ∉ STOP ∧ ∀ c ∈ "deck".data, isTokChar c = true) :=
  ⟨by decide, tokenize_spec.2.1 "Across the Deck, SAFE-Work 2a!" "deck" (by decide)⟩

/-! Monotonicity of coverage in the assessment text. -/

theorem presentCount_mono {ta tb : List String} (h : ∀ w ∈ ta, w ∈ tb)
    (key : List String) : presentCount ta key ≤ presentCount tb key := by
  unfold presentCount
  refine List.Sublist.length_le (List.monotone_filter_right key ?_)
  intro k hk
  rw [decide_eq_true_iff] at hk ⊢
  exact h k hk

theorem covScan_mono {ta tb : List String} (h : ∀ w ∈ ta, w ∈ tb) (ts : List Target) :
    (covScan ta ts).1 ≤ (covScan tb ts).1
    ∧ List.Sublist (covScan tb ts).2 (covScan ta ts).2 := by
  induction ts with
  | nil => simp [covScan]
  | cons t rest ih =>
      obtain ⟨ih1, ih2⟩ := ih
      by_cases h0 : (tokenize t.text).length = 0
      · simpa [covScan, h0] using ⟨ih1, ih2⟩
      · have hpm := presentCount_mono h (tokenize t.text)
        by_cases ha : 35 * (tokenize t.text).length ≤ 100 * presentCount ta (tokenize t.text)
        · have hb : 35 * (tokenize t.text).length ≤ 100 * presentCount tb (tokenize t.text) := by
            omega
          simp only [covScan, h0, if_neg, if_pos ha, if_pos hb, ite_false]
          exact ⟨by simpa [h0] using Nat.succ_le_succ ih1, by simpa [h0] using ih2⟩
        · by_cases hb : 35 * (tokenize t.text).length ≤ 100 * presentCount tb (tokenize t.text)
          · refine ⟨?_, ?_⟩
            · simpa [covScan, h0, ha, hb] using Nat.le_succ_of_le ih1
            · simpa [covScan, h0, ha, hb] using List.Sublist.cons (labelOf t) ih2
          · refine ⟨?_, ?_⟩
            · simpa [covScan, h0, ha, hb] using ih1
            · simpa [covScan, h0, ha, hb] using List.Sublist.cons₂ (labelOf t) ih2

theorem coverage_mono_of_subset {A B : String}
    (h : ∀ w ∈ tokenize A, w ∈ tokenize B) (reqs : List Target) :
    (coverageCheck A reqs).assessed ≤ (coverageCheck B reqs).assessed
    ∧ (coverageCheck A reqs).percentage ≤ (coverageCheck B reqs).percentage
    ∧ List.Sublist (coverageCheck B reqs).missing (coverageCheck A reqs).missing := by
  obtain ⟨h1, h2⟩ := covScan_mono h reqs
  refine ⟨by simpa [coverageCheck] using h1, ?_, by simpa [coverageCheck] using h2⟩
  by_cases hn : reqs.length = 0
  · simp [coverageCheck, hn]
  · simp only [coverageCheck, hn, if_neg, ite_false, roundHalfUp]
    exact Nat.div_le_div_right (by omega)

theorem modifyHead_append {α : Type} (f : α → α) {l1 : List α} (l2 : List α)
    (h : l1 ≠ []) : (l1 ++ l2).modifyHead f = l1.modifyHead f ++ l2 := by
  obtain ⟨x, xs, rfl⟩ := List.exists_cons_of_ne_nil h
  simp

theorem splitWs_append_ws {c : Char} (hc : isWs c = true) (l1 l2 : List Char) :
    splitWs (l1 ++ c :: l2) = splitWs l1 ++ splitWs l2 := by
  induction l1 with
  | nil => simp [splitWs, hc]
  | cons d l1 ih =>
      by_cases hd : isWs d
      · simp [splitWs, hd, ih]
      · rw [List.cons_append, splitWs, if_neg hd, ih,
          modifyHead_append _ _ (splitWs_ne_nil l1), splitWs, if_neg hd]

theorem tokenize_append (a b : String) :
    tokenize (a ++ " " ++ b) = tokenize a ++ tokenize b := by
  unfold tokenize
  have hdata : (a ++ " " ++ b).data = a.data ++ ' ' :: b.data := by
    simp [String.data_append]
  rw [hdata, List.map_append]
  have hsp : List.map normChar (' ' :: b.data) = ' ' :: List.map normChar b.data := by
    simp only [List.map_cons]
    rw [show normChar ' ' = ' ' from by decide]
  rw [hsp, splitWs_append_ws (by decide), List.map_append, List.filter_append]

/-- C10: coverage is monotone in the evidence text: when every token of
tokenize A is also a token of B, the B-coverage has at least the assessed
count and percentage of the A-coverage and its missing list is a
subsequence of the A missing list; in particular appending
whitespace-separated extra text never lowers any coverage score. -/
theorem coverage_monotone :
    (∀ (A B : String) (reqs : List Target),
        (∀ w ∈ tokenize A, w ∈ tokenize B) →
          (coverageCheck A reqs).assessed ≤ (coverageCheck B reqs).assessed
          ∧ (coverageCheck A reqs).percentage ≤ (coverageCheck B reqs).percentage
          ∧ List.Sublist (coverageCheck B reqs).missing (coverageCheck A reqs).missing)
    ∧ (∀ (A extra : String) (reqs : List Target),
        (coverageCheck A reqs).assessed ≤ (coverageCheck (A ++ " " ++ extra) reqs).assessed
        ∧ (coverageCheck A reqs).percentage
            ≤ (coverageCheck (A ++ " " ++ extra) reqs).percentage
        ∧ List.Sublist (coverageCheck (A ++ " " ++ extra) reqs).missing
            (coverageCheck A reqs).missing) := by
  refine ⟨fun A B reqs h => coverage_mono_of_subset h reqs, fun A extra reqs => ?_⟩
  refine coverage_mono_of_subset (fun w hw => ?_) reqs
  rw [tokenize_append]
  exact List.mem_append_left _ hw

/-- Witness for C10: adding the word mooring to the evidence text turns the
single requirement from missing into covered. -/
theorem coverage_monotone_witness :
    (coverageCheck "plan" [{ code := some "1.1", text := "plan mooring tasks" }]).assessed
      ≤ (coverageCheck "plan mooring" [{ code := some "1.1", text := "plan mooring tasks" }]).assessed
    ∧ (coverageCheck "plan" [{ code := some "1.1", text := "plan mooring tasks" }]).percentage
      ≤ (coverageCheck "plan mooring" [{ code := some "1.1", text := "plan mooring tasks" }]).percentage
    ∧ List.Sublist
        (coverageCheck "plan mooring" [{ code := some "1.1", text := "plan mooring tasks" }]).missing
        (coverageCheck "plan" [{ code := some "1.1", text := "plan mooring tasks" }]).missing :=
  coverage_monotone.1 "plan" "plan mooring"
    [{ code := some "1.1", text := "plan mooring tasks" }] (by decide)

end RTOValidator
